import Mathlib

/-!
A shallow embedding of `src/timing.js` (the `TimingManager` constructor and the
closures it creates: `toMs`, `register`, `ensureNonEmpty`, `play`, `cancel`,
`frameTiming`, `frameApply`), together with theorems settling the spec claims.

Modelling conventions:
* JavaScript numbers are modelled as exact rationals (`Rat`).  All time values
  appearing here (1000/fps, sums, comparisons) are exact in the scenarios the
  claims quantify over; NaN/Infinity inputs are outside the data model.
* A callback is opaque to the engine, so it is modelled as an identifier
  (`Nat`); the registry `callbacks` is an association list with unique keys,
  mirroring a JS object.  A registered callback is a function, hence truthy,
  so the JS test `callbacks[f]` is modelled as `(lookupCb cbs f).isSome`.
* A Bluebird promise produced by `Promise.delay(d).cancellable().then(body)`
  is modelled as an `OpRecord` in a store `ops`; the engine's `promises`
  array holds the indices of the records it pushed.  Firing a pending record
  is the explicit step `fireOp`; the body `callbacks[anim.label](anim)` looks
  the label up in the registry *at fire time*, exactly as the JS closure does.
* A thrown JS `Error` is modelled with `Except`: `invalidState` for
  "No actions assigned to animations" and `invalidArgument` for
  "Frames per second must be > 0".  An `Except.error` result carries no new
  state, so a failed call leaves the engine unchanged by construction.
-/

/-- One atomic animation of the timing table: `{label, start, durn}`. -/
structure TimingEntry where
  label : String
  start : Rat
  durn : Rat
deriving DecidableEq, Repr

/-- The declared time unit: one of `"ms"`, `"s"`, `"m"` (timing.js line 27). -/
inductive TimeUnit where
  | ms
  | s
  | m
deriving DecidableEq, Repr

/-- timing.js lines 36-44: convert a time in the declared unit to
milliseconds.  The final `throw` is unreachable because the constructor
admits only the three units, which the `TimeUnit` type enumerates. -/
def toMs (u : TimeUnit) (t : Rat) : Rat :=
  match u with
  | TimeUnit.ms => t
  | TimeUnit.s => t * 1000
  | TimeUnit.m => t * 60 * 1000

/-- A deferred invocation as created by `Promise.delay(d)...then(...)`:
the millisecond delay and the entry the closure captured.  The callback is
*not* a field: the closure body resolves `callbacks[anim.label]` when it
fires (timing.js lines 80 and 147). -/
structure Op where
  delayMs : Rat
  entry : TimingEntry
deriving DecidableEq, Repr

/-- The lifecycle state of one scheduled operation. -/
structure OpRecord where
  op : Op
  cancelled : Bool
  fired : Bool
deriving DecidableEq, Repr

/-- The engine state held by the `TimingManager` closure: the normalized
`timingInfo` array, the declared unit, the `callbacks` object (association
list with unique keys), and the `promises` array, given as indices into the
store `ops` of every operation ever created. -/
structure TimingManager where
  timingInfo : List TimingEntry
  timeUnit : TimeUnit
  callbacks : List (String × Nat)
  promises : List Nat
  ops : List OpRecord
deriving DecidableEq, Repr

/-- The two errors the playback operations can throw (timing.js lines 63
and 129). -/
inductive EngineError where
  | invalidState
  | invalidArgument
deriving DecidableEq, Repr

/-- Property lookup `callbacks[f]` on the registry object. -/
def lookupCb : List (String × Nat) → String → Option Nat
  | [], _ => none
  | (k, v) :: rest, f => if k = f then some v else lookupCb rest f

/-- Property assignment `callbacks[f] = v` on the registry object:
replace the binding if the key exists, otherwise append it. -/
def setCb : List (String × Nat) → String → Nat → List (String × Nat)
  | [], f, v => [(f, v)]
  | (k, w) :: rest, f, v =>
    if k = f then (f, v) :: rest else (k, w) :: setCb rest f v

/-- timing.js lines 53-58: `register(fns, overwrite)`.  For each key `f` of
`fns` in order: `if (! callbacks[f] || overwrite) callbacks[f] = fns[f]`. -/
def register (tm : TimingManager) (fns : List (String × Nat))
    (overwrite : Bool) : TimingManager :=
  { tm with
    callbacks := fns.foldl
      (fun cbs fv =>
        if (lookupCb cbs fv.1).isNone || overwrite then
          setCb cbs fv.1 fv.2
        else cbs)
      tm.callbacks }

/-- Push freshly created operations onto `promises` (timing.js lines 77 and
144): the records are appended to the store and their indices to the
`promises` array. -/
def scheduleOps (tm : TimingManager) (newOps : List Op) : TimingManager :=
  { tm with
    ops := tm.ops ++ newOps.map (fun o => OpRecord.mk o false false),
    promises := tm.promises ++
      (List.range newOps.length).map (fun i => tm.ops.length + i) }

/-- The operations `play(t)` creates (timing.js lines 75-85): one per entry
whose label has a registered callback, at delay `t + toMs(anim.start)` —
note the source adds the caller's `t` *without* converting it to
milliseconds.  Entries with no registered callback are only warned about. -/
def playOps (tm : TimingManager) (t : Rat) : List Op :=
  tm.timingInfo.filterMap (fun anim =>
    if (lookupCb tm.callbacks anim.label).isSome then
      some (Op.mk (t + toMs tm.timeUnit anim.start) anim)
    else none)

/-- timing.js lines 72-87: `play(t)`.  `ensureNonEmpty()` throws when the
registry object is empty; `t = t || 0` is the identity on a supplied
number (modulo NaN, outside the model). -/
def play (tm : TimingManager) (t : Rat) : Except EngineError TimingManager :=
  if tm.callbacks.isEmpty then Except.error EngineError.invalidState
  else Except.ok (scheduleOps tm (playOps tm t))

/-- The effect of `p.cancel(...)` on each promise whose index is listed:
its record is marked cancelled (an already fired promise is unaffected
observably, since firing is over). -/
def cancelOps (ids : List Nat) : List OpRecord → Nat → List OpRecord
  | [], _ => []
  | r :: rest, i =>
    (if i ∈ ids then { r with cancelled := true } else r)
      :: cancelOps ids rest (i + 1)

/-- timing.js lines 94-99: `cancel()` cancels every promise in the
`promises` array and then resets the array to `[]`. -/
def cancel (tm : TimingManager) : TimingManager :=
  { tm with ops := cancelOps tm.promises tm.ops 0, promises := [] }

/-- timing.js lines 108-114: `frameTiming(t)` filters `timingInfo` by
`t >= toMs(info.start) && t < toMs(info.start + info.durn)`; `t` is raw
milliseconds, never converted. -/
def frameTiming (tm : TimingManager) (t : Rat) : List TimingEntry :=
  tm.timingInfo.filter (fun info =>
    decide (toMs tm.timeUnit info.start ≤ t ∧
      t < toMs tm.timeUnit (info.start + info.durn)))

/-- timing.js lines 131-134: the running maximum
`durn = Math.max(durn, toMs(info.start + info.durn))` starting from 0. -/
def totalDurnMs (tm : TimingManager) : Rat :=
  tm.timingInfo.foldl
    (fun d info => max d (toMs tm.timeUnit (info.start + info.durn))) 0

/-- The length of the `times` array built by the loop
`for (i = 0; (i * increment) < durn; i++)` (timing.js line 137): with
`increment = 1000 / fps > 0` this pushes exactly the indices
`i < durn / increment`, i.e. `Nat.ceil (durn / increment)` many
(see `numSamples_spec`). -/
def numSamples (tm : TimingManager) (fps : Rat) : Nat :=
  Nat.ceil (totalDurnMs tm / (1000 / fps))

/-- The value `times[j] = t + j * increment` (timing.js line 138), with `t`
already converted to milliseconds. -/
def sampleInstant (tm : TimingManager) (fps t : Rat) (j : Nat) : Rat :=
  toMs tm.timeUnit t + (j : Rat) * (1000 / fps)

/-- The operations `frameApply(fps, t)` creates (timing.js lines 142-167).
The playback loop `for (i = t; i < _.last(times); i += increment)` visits
`i = times[0], …` strictly below the *last* element of `times`, i.e. the
indices `j < numSamples - 1` (when `times` is empty, `_.last` is undefined
and the loop body never runs, matching `numSamples - 1 = 0` in `Nat`).
At each visited instant the active entries `frameTiming(i)` with a
registered callback yield one operation with delay `i` via `playFrame`. -/
def frameApplyOps (tm : TimingManager) (fps t : Rat) : List Op :=
  (List.range (numSamples tm fps - 1)).flatMap (fun j =>
    (frameTiming tm (sampleInstant tm fps t j)).filterMap (fun info =>
      if (lookupCb tm.callbacks info.label).isSome then
        some (Op.mk (sampleInstant tm fps t j) info)
      else none))

/-- timing.js lines 123-170: `frameApply(fps, t)`.  After `ensureNonEmpty`,
`fps = fps || 10` replaces a zero (falsy) argument by the default 10, and
only then is `fps <= 0` rejected. -/
def frameApply (tm : TimingManager) (fps t : Rat) :
    Except EngineError TimingManager :=
  if tm.callbacks.isEmpty then Except.error EngineError.invalidState
  else
    let fps' := if fps = 0 then 10 else fps
    if fps' ≤ 0 then Except.error EngineError.invalidArgument
    else Except.ok (scheduleOps tm (frameApplyOps tm fps' t))

/-- Firing the pending operation at index `id`: allowed only when it is
neither cancelled nor already fired; it is marked fired, and the callback
actually invoked is `callbacks[anim.label]` resolved in the registry as it
stands *now* (timing.js lines 79-81 and 146-148). -/
def fireOp (tm : TimingManager) (id : Nat) :
    Option (TimingManager × Option Nat) :=
  match tm.ops[id]? with
  | none => none
  | some r =>
    if r.cancelled || r.fired then none
    else some
      ({ tm with ops := tm.ops.set id { r with fired := true } },
       lookupCb tm.callbacks r.op.entry.label)

/-- The one-entry table `[{label: "X", start: 0, durn: 1}]`. -/
def xEntry : TimingEntry := TimingEntry.mk "X" 0 1

/-- The one-entry table `[{label: "Y", start: 0, durn: 1}]`. -/
def yEntry : TimingEntry := TimingEntry.mk "Y" 0 1

/-- A fresh engine over `[xEntry]` in unit `"s"` with an empty registry. -/
def emptyTM : TimingManager :=
  TimingManager.mk [xEntry] TimeUnit.s [] [] []

/-- An engine over `[xEntry]` in unit `"s"` with `"X"` registered. -/
def tmX : TimingManager :=
  TimingManager.mk [xEntry] TimeUnit.s [("X", 0)] [] []

/-- An engine over `[yEntry]` in unit `"s"` with `"Y"` registered. -/
def tmY : TimingManager :=
  TimingManager.mk [yEntry] TimeUnit.s [("Y", 0)] [] []

/-- An engine with one pending scheduled operation outstanding. -/
def tmPending : TimingManager :=
  TimingManager.mk [xEntry] TimeUnit.ms [("X", 0)] [0]
    [OpRecord.mk (Op.mk 0 xEntry) false false]

/-- The state after `register({X: 0}); play(0)` on `emptyTM`: one pending
operation for `xEntry` at delay 0 is outstanding. -/
def playedTM : TimingManager :=
  scheduleOps (register emptyTM [("X", 0)] false)
    (playOps (register emptyTM [("X", 0)] false) 0)

/-- The translation of the `times`-building loop is faithful: for a positive
increment, index `i` is pushed exactly when `i * increment < durn`, so the
loop pushes `Nat.ceil (durn / increment)` elements. -/
theorem numSamples_spec (tm : TimingManager) (fps : Rat) (hfps : 0 < fps)
    (i : Nat) :
    i < numSamples tm fps ↔ (i : Rat) * (1000 / fps) < totalDurnMs tm := by
  have hinc : 0 < (1000 : Rat) / fps := by positivity
  rw [numSamples, Nat.lt_ceil, lt_div_iff₀ hinc]

/-- Looking a key up after a property assignment: the assigned key maps to
the new value, every other key is untouched. -/
theorem lookupCb_setCb (cbs : List (String × Nat)) (k f : String) (v : Nat) :
    lookupCb (setCb cbs k v) f = if k = f then some v else lookupCb cbs f := by
  induction cbs with
  | nil => simp [setCb, lookupCb]
  | cons p rest ih =>
    obtain ⟨q, w⟩ := p
    by_cases h1 : q = k
    · subst h1
      by_cases h2 : q = f <;> simp [setCb, lookupCb, h2]
    · have h1x : ¬ k = q := fun h => h1 h.symm
      by_cases h2 : q = f
      · subst h2
        simp [setCb, lookupCb, h1, h1x]
      · simp [setCb, lookupCb, h1, h2, ih]

/-- The loop body of `register` leaves every key other than the processed
one untouched. -/
theorem lookupCb_registerStep_ne (ow : Bool) (cbs : List (String × Nat))
    (fv : String × Nat) (f : String) (hf : ¬ fv.1 = f) :
    lookupCb
      (if (lookupCb cbs fv.1).isNone || ow then setCb cbs fv.1 fv.2 else cbs)
      f = lookupCb cbs f := by
  by_cases h : (lookupCb cbs fv.1).isNone || ow <;>
    simp [h, lookupCb_setCb, hf]

/-- Folding the `register` loop over keys not containing `f` does not
change the binding of `f`. -/
theorem lookupCb_registerFold_notMem (ow : Bool)
    (fns cbs : List (String × Nat)) (f : String)
    (hf : f ∉ fns.map Prod.fst) :
    lookupCb
      (fns.foldl
        (fun cbs fv =>
          if (lookupCb cbs fv.1).isNone || ow then setCb cbs fv.1 fv.2
          else cbs)
        cbs) f = lookupCb cbs f := by
  induction fns generalizing cbs with
  | nil => rfl
  | cons q rest ih =>
    simp only [List.map_cons, List.mem_cons, not_or] at hf
    rw [List.foldl_cons, ih _ hf.2,
      lookupCb_registerStep_ne ow cbs q f (fun h => hf.1 h.symm)]

/-- Folding the `register` loop over an input with unique keys: each input
binding takes effect exactly when its key is unbound or `overwrite` is
set. -/
theorem lookupCb_registerFold_mem (ow : Bool)
    (fns cbs : List (String × Nat))
    (hnd : (fns.map Prod.fst).Nodup) (p : String × Nat) (hp : p ∈ fns) :
    lookupCb
      (fns.foldl
        (fun cbs fv =>
          if (lookupCb cbs fv.1).isNone || ow then setCb cbs fv.1 fv.2
          else cbs)
        cbs) p.1 =
      if (lookupCb cbs p.1).isNone || ow then some p.2
      else lookupCb cbs p.1 := by
  induction fns generalizing cbs with
  | nil => cases hp
  | cons q rest ih =>
    simp only [List.map_cons, List.nodup_cons] at hnd
    rw [List.foldl_cons]
    rcases List.mem_cons.1 hp with hpq | hpr
    · subst hpq
      rw [lookupCb_registerFold_notMem ow rest _ _ hnd.1]
      by_cases hc : (lookupCb cbs p.1).isNone || ow <;>
        simp [hc, lookupCb_setCb]
    · have hq1 : ¬ q.1 = p.1 := by
        intro h
        apply hnd.1
        rw [h]
        exact List.mem_map.2 ⟨p, hpr, rfl⟩
      rw [ih _ hnd.2 hpr, lookupCb_registerStep_ne ow cbs q p.1 hq1]

/-- Cancelling with an empty `promises` array touches no record. -/
theorem cancelOps_nil (l : List OpRecord) (i : Nat) : cancelOps [] l i = l := by
  induction l generalizing i with
  | nil => rfl
  | cons r rest ih => simp [cancelOps, ih]

/-- Index access after `cancelOps`: the record at absolute index `k + j` is
marked cancelled exactly when that index is listed. -/
theorem cancelOps_getElem (ids : List Nat) (l : List OpRecord) (k j : Nat) :
    (cancelOps ids l k)[j]? = (l[j]?).map
      (fun r => if (k + j) ∈ ids then { r with cancelled := true } else r) := by
  induction l generalizing k j with
  | nil => simp [cancelOps]
  | cons r rest ih =>
    cases j with
    | zero => simp [cancelOps]
    | succ j =>
      have harith : k + 1 + j = k + (j + 1) := by omega
      simp only [cancelOps, List.getElem?_cons_succ, ih (k + 1) j, harith]

/-- `cancel` on an engine with nothing outstanding is the identity. -/
theorem cancel_promises_nil (tm : TimingManager) (h : tm.promises = []) :
    cancel tm = tm := by
  rw [cancel, h, cancelOps_nil, ← h]

/-- C9: for every declared valid unit, `toMs` is linear (additive and
homogeneous) and monotonic with `toMs 0 = 0`, and applies the fixed
multiplier of the unit: 1 for ms, 1000 for s, 60000 for m. -/
theorem c9_toMs_linear_monotonic (u : TimeUnit) (a b c : Rat) :
    toMs u 0 = 0 ∧
    toMs u (a + b) = toMs u a + toMs u b ∧
    toMs u (c * a) = c * toMs u a ∧
    (a ≤ b → toMs u a ≤ toMs u b) ∧
    toMs TimeUnit.ms a = a ∧
    toMs TimeUnit.s a = 1000 * a ∧
    toMs TimeUnit.m a = 60000 * a := by
  refine ⟨?_, ?_, ?_, ?_, rfl, by rw [toMs]; ring, by rw [toMs]; ring⟩
  · cases u <;> simp [toMs]
  · cases u <;> simp [toMs] <;> ring
  · cases u <;> simp [toMs] <;> ring
  · intro hab
    cases u <;> simp [toMs] <;> nlinarith

/-- Witness for C9: the monotonicity hypothesis discharged at 1 ≤ 2 under
unit s. -/
theorem c9_witness :
    (1 : Rat) ≤ 2 ∧ toMs TimeUnit.s 1 ≤ toMs TimeUnit.s 2 :=
  ⟨by norm_num, (c9_toMs_linear_monotonic TimeUnit.s 1 2 3).2.2.2.1 (by norm_num)⟩

/-- C5: `frameTiming(t)` ignores the registry and the outstanding
operations, returns exactly the entries with
`toMs(start) ≤ t < toMs(start + durn)` (so `t = toMs(start)` is included
and `t = toMs(start + durn)` is excluded), and preserves table order
(its result is a sublist of the table). -/
theorem c5_frameTiming_pure_query (tm : TimingManager) (t : Rat)
    (cbs : List (String × Nat)) (pr : List Nat) (os : List OpRecord) :
    frameTiming { tm with callbacks := cbs, promises := pr, ops := os } t
      = frameTiming tm t ∧
    (∀ e, e ∈ frameTiming tm t ↔
      e ∈ tm.timingInfo ∧ toMs tm.timeUnit e.start ≤ t ∧
        t < toMs tm.timeUnit (e.start + e.durn)) ∧
    List.Sublist (frameTiming tm t) tm.timingInfo := by
  refine ⟨rfl, ?_, List.filter_sublist _⟩
  intro e
  simp [frameTiming, List.mem_filter]

/-- C6: with an empty registry, both playback operations fail with the
invalid-state error before any scheduling; an error result carries no
state, so the outstanding set is unchanged. -/
theorem c6_empty_registry_errors (tm : TimingManager) (t fps d : Rat)
    (h : tm.callbacks = []) :
    play tm t = Except.error EngineError.invalidState ∧
    frameApply tm fps d = Except.error EngineError.invalidState := by
  simp [play, frameApply, h]

/-- Witness for C6: the empty-registry hypothesis discharged on a concrete
engine. -/
theorem c6_witness :
    play emptyTM 0 = Except.error EngineError.invalidState ∧
    frameApply emptyTM 10 0 = Except.error EngineError.invalidState :=
  c6_empty_registry_errors emptyTM 0 10 0 rfl

/-- C7: `cancel()` empties the outstanding set, no cancelled operation can
fire its callback afterwards, cancelling with nothing outstanding is a
no-op, and cancelling twice is the same as cancelling once. -/
theorem c7_cancel_clears_outstanding (tm : TimingManager) :
    (cancel tm).promises = [] ∧
    (∀ id ∈ tm.promises, fireOp (cancel tm) id = none) ∧
    (tm.promises = [] → cancel tm = tm) ∧
    cancel (cancel tm) = cancel tm := by
  refine ⟨rfl, ?_, cancel_promises_nil tm, cancel_promises_nil (cancel tm) rfl⟩
  intro id hid
  have hget := cancelOps_getElem tm.promises tm.ops 0 id
  simp only [Nat.zero_add] at hget
  cases hops : tm.ops[id]? with
  | none => simp [fireOp, cancel, hget, hops]
  | some r => simp [fireOp, cancel, hget, hops, hid]

/-- Witness for C7: on an engine with one pending operation, after
`cancel` that operation cannot fire and nothing is outstanding. -/
theorem c7_witness :
    fireOp (cancel tmPending) 0 = none ∧ (cancel tmPending).promises = [] :=
  ⟨(c7_cancel_clears_outstanding tmPending).2.1 0 (by simp [tmPending]),
   (c7_cancel_clears_outstanding tmPending).1⟩

/-- C8: registering `{A: f}` then `{A: g}` without overwrite leaves `A`
bound to `f`; with overwrite it rebinds to `g`; and in general, for an
input object (unique keys, as JS object keys are), each binding takes
effect exactly when the label is unbound or `overwrite` is true. -/
theorem c8_register_overwrite_policy (tm : TimingManager) (A : String)
    (f g : Nat) (fns : List (String × Nat)) (ow : Bool)
    (hA : lookupCb tm.callbacks A = none)
    (hnd : (fns.map Prod.fst).Nodup) :
    lookupCb
      (register (register tm [(A, f)] false) [(A, g)] false).callbacks A
      = some f ∧
    lookupCb
      (register (register tm [(A, f)] false) [(A, g)] true).callbacks A
      = some g ∧
    (∀ p ∈ fns, lookupCb (register tm fns ow).callbacks p.1 =
      if (lookupCb tm.callbacks p.1).isNone || ow then some p.2
      else lookupCb tm.callbacks p.1) := by
  refine ⟨?_, ?_, fun p hp => lookupCb_registerFold_mem ow fns tm.callbacks hnd p hp⟩
  · simp [register, hA, lookupCb_setCb]
  · simp [register, hA, lookupCb_setCb]

/-- Witness for C8: the fresh-label and unique-keys hypotheses discharged
on a concrete engine. -/
theorem c8_witness :
    lookupCb
      (register (register emptyTM [("A", 1)] false) [("A", 2)] false).callbacks
      "A" = some 1 ∧
    lookupCb
      (register (register emptyTM [("A", 1)] false) [("A", 2)] true).callbacks
      "A" = some 2 :=
  ⟨(c8_register_overwrite_policy emptyTM "A" 1 2 [("B", 5)] false rfl
      (by simp)).1,
   (c8_register_overwrite_policy emptyTM "A" 1 2 [("B", 5)] false rfl
      (by simp)).2.1⟩

/-- C10: an fps argument of 0 is falsy, so `fps = fps || 10` replaces it by
the default 10 before the positivity check: `frameApply(0, d)` behaves
exactly like `frameApply(10, d)` on every engine, and with a non-empty
registry the call proceeds instead of failing. -/
theorem c10_fps_zero_uses_default (tm : TimingManager) (d : Rat) :
    frameApply tm 0 d = frameApply tm 10 d ∧
    (tm.callbacks ≠ [] →
      frameApply tm 0 d ≠ Except.error EngineError.invalidArgument) := by
  constructor
  · norm_num [frameApply]
  · intro hne
    cases hcb : tm.callbacks with
    | nil => exact absurd hcb hne
    | cons p rest =>
      norm_num [frameApply, hcb]
      exact fun h => Except.noConfusion h

/-- Witness for C10: the non-empty-registry hypothesis discharged on a
concrete engine. -/
theorem c10_witness :
    frameApply tmY 0 0 = frameApply tmY 10 0 ∧
    frameApply tmY 0 0 ≠ Except.error EngineError.invalidArgument :=
  ⟨(c10_fps_zero_uses_default tmY 0).1,
   (c10_fps_zero_uses_default tmY 0).2 (by simp [tmY])⟩

/-- C3 counterexample: the claim includes `fps = 0` among the values that
must fail, but on a concrete engine with a non-empty registry
`frameApply(0)` does not raise the invalid-argument error: being falsy,
0 is replaced by the default 10 before the check. -/
theorem c3_counterexample :
    frameApply tmY 0 0 ≠ Except.error EngineError.invalidArgument := by
  norm_num [frameApply, tmY]
  exact fun h => Except.noConfusion h

/-- C3 amended: for every strictly negative fps and every engine with a
non-empty registry, `frameApply` fails with the invalid-argument error and
schedules nothing (the error result carries no state); `fps = 0` instead
falls back to the default of 10. -/
theorem c3_negative_fps_errors (tm : TimingManager) (fps d : Rat)
    (hfps : fps < 0) (hne : tm.callbacks ≠ []) :
    frameApply tm fps d = Except.error EngineError.invalidArgument := by
  have h0 : fps ≠ 0 := ne_of_lt hfps
  cases hcb : tm.callbacks with
  | nil => exact absurd hcb hne
  | cons p rest => simp [frameApply, hcb, h0, le_of_lt hfps]

/-- Witness for C3: the hypotheses discharged at fps = -1 on a concrete
engine. -/
theorem c3_witness :
    frameApply tmY (-1) 0 = Except.error EngineError.invalidArgument :=
  c3_negative_fps_errors tmY (-1) 0 (by norm_num) (by simp [tmY])

/-- C1 (code bug): on the table `[{X,0,1}]` in unit s with X registered,
`play(0)` schedules exactly one operation at 0 ms, as the claim states; but
`play(2)` schedules it at delay 2 ms, not 2000 ms: line 77 computes
`t + toMs(anim.start)` without converting `t` to milliseconds, although the
method's own doc comment declares the delay to be "in timeUnits". -/
theorem c1_play_delay_not_converted :
    play tmX 0 = Except.ok (scheduleOps tmX [Op.mk 0 xEntry]) ∧
    play tmX 2 = Except.ok (scheduleOps tmX [Op.mk 2 xEntry]) ∧
    (Op.mk (2 : Rat) xEntry).delayMs ≠ 2000 := by
  refine ⟨?_, ?_, by decide⟩ <;>
    norm_num [play, tmX, playOps, xEntry, lookupCb, toMs,
      List.filterMap_cons, List.filterMap_nil]

/-- C2 (code bug): on the table `[{Y,0,1}]` in unit s with Y registered,
`frameApply(2)` builds `times = [0, 500]` but the playback loop at line 162
stops strictly before `_.last(times)`, so Y is scheduled exactly once, at
sample instant 0 — not twice as claimed (and as the repository README
promises: the action should run `fps` times per second of duration). -/
theorem c2_frameApply_skips_last_instant :
    frameApplyOps tmY 2 0 = [Op.mk 0 yEntry] ∧
    (frameApplyOps tmY 2 0).length ≠ 2 ∧
    frameApply tmY 2 0 = Except.ok (scheduleOps tmY [Op.mk 0 yEntry]) := by
  have hn : numSamples tmY 2 = 2 := by
    norm_num [numSamples, totalDurnMs, tmY, yEntry, toMs]
  have hs : sampleInstant tmY 2 0 0 = 0 := by
    norm_num [sampleInstant, toMs, tmY]
  have hf : frameTiming tmY 0 = [yEntry] := by
    norm_num [frameTiming, tmY, yEntry, toMs]
  have h : frameApplyOps tmY 2 0 = [Op.mk 0 yEntry] := by
    have h21 : (2 : Nat) - 1 = 1 := rfl
    have hrange : List.range 1 = [0] := rfl
    simp only [frameApplyOps, hn, h21, hrange, List.flatMap_cons,
      List.flatMap_nil, hs, hf]
    norm_num [tmY, yEntry, lookupCb, List.filterMap_cons,
      List.filterMap_nil]
  have h2 : frameApply tmY 2 0
      = Except.ok (scheduleOps tmY (frameApplyOps tmY 2 0)) := by
    norm_num [frameApply, tmY]
  refine ⟨h, by rw [h]; norm_num, by rw [h2, h]⟩

/-- C4 counterexample: the claim says an in-flight operation invokes the
callback registered at scheduling time.  Concretely: register X to
callback 0, play, then overwrite X with callback 1 before the operation
fires — firing invokes callback 1 (looked up at fire time), not 0. -/
theorem c4_counterexample :
    play (register emptyTM [("X", 0)] false) 0 = Except.ok playedTM ∧
    (fireOp (register playedTM [("X", 1)] true) 0).map Prod.snd
      = some (some 1) ∧
    some (some 1) ≠ (some (some 0) : Option (Option Nat)) := by
  refine ⟨rfl, rfl, by decide⟩

/-- C4 amended: a scheduled operation resolves its label in the registry at
fire time, not at scheduling time: whatever was registered when the
operation was scheduled, if the label's callback has been overwritten with
`g` by the time the pending operation fires, the operation invokes `g`. -/
theorem c4_callback_resolved_at_fire_time (tm : TimingManager) (A : String)
    (g id : Nat) (r : OpRecord) (hr : tm.ops[id]? = some r)
    (hlab : r.op.entry.label = A) (hc : r.cancelled = false)
    (hf : r.fired = false) :
    (fireOp (register tm [(A, g)] true) id).map Prod.snd = some (some g) ∧
    ∀ f : Nat, f ≠ g →
      (fireOp (register tm [(A, g)] true) id).map Prod.snd
        ≠ some (some f) := by
  have hops : (register tm [(A, g)] true).ops = tm.ops := rfl
  have hcb : lookupCb (register tm [(A, g)] true).callbacks A = some g := by
    simp [register, lookupCb_setCb]
  have hmain :
      (fireOp (register tm [(A, g)] true) id).map Prod.snd
        = some (some g) := by
    simp [fireOp, hops, hr, hc, hf, hlab, hcb]
  refine ⟨hmain, fun f hfg => ?_⟩
  rw [hmain]
  simp only [ne_eq, Option.some.injEq]
  exact fun h => hfg h.symm

/-- Witness for C4: the hypotheses discharged on the concrete played
engine, whose pending operation 0 carries the entry labelled X. -/
theorem c4_witness :
    (fireOp (register playedTM [("X", 1)] true) 0).map Prod.snd
      = some (some 1) :=
  (c4_callback_resolved_at_fire_time playedTM "X" 1 0
    (OpRecord.mk (Op.mk (0 + toMs TimeUnit.s 0) xEntry) false false)
    rfl rfl rfl rfl).1
